import Mathlib

/-!
Shallow embedding of the youtube-metadata-extractor reconciliation engine
(src/index.ts).  External collaborators (the YouTube API client, the CSV
codec, the `he` entity decoder) are modelled as explicit parameters or
finite-table approximations; the control flow and data transformations of
`getNewVideos`, `updateExistingVideos`, `readCsvFile` and `main` are
translated directly from the source.
-/

namespace YtSync

/-- One row of the local dataset (interface VideoRecord, src/index.ts:15).
`ViewCount`/`LikeCount` are optional numbers; absence models the JS
`undefined`. -/
structure VideoRecord where
  ID : String
  Title : String
  publishedAt : String
  Duration : String
  ViewCount : Option Int
  LikeCount : Option Int
deriving Repr, DecidableEq

/-- One item of a `search.list` page: `item.id?.videoId`,
`item.snippet?.title`, `item.snippet?.publishedAt` (all possibly absent). -/
structure SearchItem where
  videoId : Option String
  title : Option String
  publishedAt : Option String
deriving Repr, DecidableEq

/-- The `statistics` object of a `videos.list` item.  `none` models an
absent or non-numeric count (JS `Number(x)` giving `NaN`), which the code
coerces to `0` via `|| 0`. -/
structure Stats where
  viewCount : Option Int
  likeCount : Option Int
deriving Repr, DecidableEq

/-- The `contentDetails` object of a `videos.list` item. -/
structure ContentDetails where
  duration : Option String
deriving Repr, DecidableEq

/-- One item of a `videos.list` detail response. -/
structure DetailItem where
  id : Option String
  contentDetails : Option ContentDetails
  statistics : Option Stats
deriving Repr, DecidableEq

/-- A deterministic oracle for `youtubeApi.videos.list`: the ids requested
determine the response (or a thrown error).  Quantifying over all such
oracles covers all remote behaviours of one run. -/
def DetailApi : Type := List String → Except String (List DetailItem)

/-- Fuel-driven worker for `chunksOf` (structural recursion so concrete
instances reduce by `rfl`/`decide`). -/
def chunksFuel (n : Nat) : Nat → List α → List (List α)
  | _, [] => []
  | 0, l => [l]
  | f + 1, x :: xs => ((x :: xs).take n) :: chunksFuel n f ((x :: xs).drop n)

/-- `chunksOf n l` splits `l` into consecutive chunks of at most `n`
elements: the model of the `for (let i = 0; i < a.length; i += 50)` /
`a.slice(i, i + 50)` loops (src/index.ts:63, src/index.ts:93). -/
def chunksOf (n : Nat) (l : List α) : List (List α) :=
  chunksFuel n l.length l

/-- Replace the first element satisfying `p` by its image under `f`:
the model of `videos.find(v => v.ID === item.id)` followed by in-place
field mutation (src/index.ts:71, src/index.ts:101). -/
def updateFirst (p : VideoRecord → Bool) (f : VideoRecord → VideoRecord) : List VideoRecord → List VideoRecord
  | [] => []
  | v :: vs => if p v then f v :: vs else v :: updateFirst p f vs

/-- Apply one detail-response item to the record list: look up the first
record whose `ID` equals `item.id` and, when guard `g` accepts the item,
overwrite fields.  `g` abstracts the two guards `item.contentDetails`
(hydration, line 72) and `item.statistics` (refresh, line 102). -/
def applyItem (g : DetailItem → Option (VideoRecord → VideoRecord)) (vids : List VideoRecord) (it : DetailItem) : List VideoRecord :=
  match it.id, g it with
  | some iid, some f => updateFirst (fun v => v.ID == iid) f vids
  | _, _ => vids

/-- Field update performed during hydration of new videos
(src/index.ts:72-76): requires `item.contentDetails`; counts are
`Number(item.statistics?.viewCount) || 0`. -/
def hydrateUpd (it : DetailItem) : Option (VideoRecord → VideoRecord) :=
  it.contentDetails.map fun cd v =>
    { v with Duration := cd.duration.getD ""
           , ViewCount := some ((it.statistics.bind Stats.viewCount).getD 0)
           , LikeCount := some ((it.statistics.bind Stats.likeCount).getD 0) }

/-- Field update performed during refresh of existing videos
(src/index.ts:102-105): requires `item.statistics`; `Duration` is not
touched. -/
def refreshUpd (it : DetailItem) : Option (VideoRecord → VideoRecord) :=
  it.statistics.map fun st v =>
    { v with ViewCount := some (st.viewCount.getD 0)
           , LikeCount := some (st.likeCount.getD 0) }

/-- The id lists of the `videos.list` detail calls issued over `vids`
(both chunking loops compute `chunk.map(v => v.ID)` over slices of 50). -/
def detailCallsOf (vids : List VideoRecord) : List (List String) :=
  chunksOf 50 (vids.map VideoRecord.ID)

/-- Issue the detail calls of `detailCallsOf vids` in order, folding each
response's items into the record list; a thrown call aborts the whole
operation (the surrounding `try`/`catch` rethrows). -/
def runChunks (api : DetailApi) (g : DetailItem → Option (VideoRecord → VideoRecord)) (vids : List VideoRecord) : Except String (List VideoRecord) :=
  (detailCallsOf vids).foldlM
    (fun acc ids => (api ids).map fun items => items.foldl (applyItem g) acc) vids

/-- One `search.list` item to a provisional new record (src/index.ts:43-52):
kept only when `item.id?.videoId` exists and is not already known. -/
def pageNew (existingIds : List String) (it : SearchItem) : Option VideoRecord :=
  match it.videoId with
  | some vid =>
      if existingIds.contains vid then none
      else some { ID := vid, Title := it.title.getD "", publishedAt := it.publishedAt.getD ""
                , Duration := "", ViewCount := none, LikeCount := none }
  | none => none

/-- Walk all listing pages, collecting provisional new records in page
order (the `do`/`while (pageToken)` loop, src/index.ts:30-57).  The check
is only against `existingIds`, never against records already collected. -/
def collectNew (existingIds : List String) (pages : List (List SearchItem)) : List VideoRecord :=
  (pages.map (List.filterMap (pageNew existingIds))).flatten

/-- Hydration phase of `getNewVideos` (src/index.ts:62-81): skipped
entirely when no new videos were found. -/
def hydrateNew (api : DetailApi) (newVids : List VideoRecord) : Except String (List VideoRecord) :=
  if newVids.isEmpty then .ok newVids else runChunks api hydrateUpd newVids

/-- `getNewVideos` (src/index.ts:24-88): the listing outcome is modelled
as an already-paginated result (pages in arrival order, or the thrown
error). -/
def getNewVideos (listing : Except String (List (List SearchItem))) (api : DetailApi) (existingIds : List String) : Except String (List VideoRecord) := do
  let pages ← listing
  hydrateNew api (collectNew existingIds pages)

/-- `updateExistingVideos` (src/index.ts:90-116). -/
def updateExistingVideos (api : DetailApi) (vids : List VideoRecord) : Except String (List VideoRecord) :=
  runChunks api refreshUpd vids

/-- The comparator of src/index.ts:166 as a stable-sort order: with
`ts` modelling `s => new Date(s).getTime()`, JS keeps `a` before `b`
exactly when `ts b - ts a ≤ 0`. -/
def videoLE (ts : String → Int) (a b : VideoRecord) : Bool :=
  decide (ts b.publishedAt ≤ ts a.publishedAt)

/-- The merge-and-sort step of `main` (src/index.ts:165-166):
`[...updatedExistingVideos, ...newVideos].sort(...)`.  JS `Array.sort`
is stable, so it is modelled by the stable `List.mergeSort`. -/
def mergeSortVideos (ts : String → Int) (existing newV : List VideoRecord) : List VideoRecord :=
  (existing ++ newV).mergeSort (videoLE ts)

/-- Named-entity table modelling the external `he` library for the
entities relevant to this dataset: `he.decode` maps each semicolon
terminated named reference to its character. -/
def entityTable : List (List Char × Char) :=
  [ (['q', 'u', 'o', 't'], '"')
  , (['a', 'm', 'p'], '&')
  , (['l', 't'], '<')
  , (['g', 't'], '>')
  , (['a', 'p', 'o', 's'], '\'')
  , (['n', 'b', 's', 'p'], ' ')
  , (['r', 's', 'q', 'u', 'o'], '’')
  , (['l', 's', 'q', 'u', 'o'], '‘')
  , (['r', 'd', 'q', 'u', 'o'], '”')
  , (['l', 'd', 'q', 'u', 'o'], '“')
  , (['h', 'e', 'l', 'l', 'i', 'p'], '…') ]

/-- Fuel-driven worker for entity decoding: at `&`, read up to `;` and
look the name up; unknown or unterminated references stay literal. -/
def heDecodeFuel : Nat → List Char → List Char
  | _, [] => []
  | 0, l => l
  | f + 1, c :: cs =>
      if c = '&' then
        match (cs.takeWhile (· ≠ ';')), (cs.dropWhile (· ≠ ';')) with
        | name, ';' :: rest =>
            match (entityTable.find? (fun e => e.1 = name)) with
            | some e => e.2 :: heDecodeFuel f rest
            | none => c :: heDecodeFuel f cs
        | _, _ => c :: heDecodeFuel f cs
      else c :: heDecodeFuel f cs

/-- Model of `he.decode` (src/index.ts:171), restricted to the
`entityTable` references. -/
def heDecode (l : List Char) : List Char :=
  heDecodeFuel l.length l

/-- `.replace(/[‘’]/g, "'")` (src/index.ts:172): every curly
single quote becomes the ASCII apostrophe. -/
def unifySingle (l : List Char) : List Char :=
  l.map fun c => if c = '‘' ∨ c = '’' then '\'' else c

/-- Fuel-driven worker for `.replace(/"([^"]+)"/g, "'$1'")`
(src/index.ts:173): at each `"`, a nonempty run of non-quote characters
followed by `"` is rewritten with single quotes; otherwise the scan
advances one character. -/
def rewriteDQFuel : Nat → List Char → List Char
  | _, [] => []
  | 0, l => l
  | f + 1, c :: cs =>
      if c = '"' then
        match (cs.takeWhile (· ≠ '"')), (cs.dropWhile (· ≠ '"')) with
        | [], _ => c :: rewriteDQFuel f cs
        | inner, '"' :: rest =>
            '\'' :: inner ++ '\'' :: rewriteDQFuel f rest
        | _, _ => c :: rewriteDQFuel f cs
      else c :: rewriteDQFuel f cs

/-- Model of the double-quote rewriting regex replacement. -/
def rewriteDQ (l : List Char) : List Char :=
  rewriteDQFuel l.length l

/-- The title transformation of src/index.ts:171-173, in source order:
entity decoding, then curly-single-quote unification, then double-quote
rewriting. -/
def normalizeTitle (s : String) : String :=
  ⟨rewriteDQ (unifySingle (heDecode s.data))⟩

/-- The `allVideos.map(video => ({...video, Title: ...}))` step
(src/index.ts:169-174). -/
def processVideos (vids : List VideoRecord) : List VideoRecord :=
  vids.map fun v => { v with Title := normalizeTitle v.Title }

/-- Error classes of `fs.readFile`: `ENOENT` against everything else. -/
inductive FsError
  | enoent
  | other (code : String)
deriving Repr, DecidableEq

/-- A run-level error: a file-system failure or a thrown remote call. -/
inductive RunError
  | fs (e : FsError)
  | api (msg : String)
deriving Repr, DecidableEq

/-- `readCsvFile` (src/index.ts:118-142): `ENOENT` is recovered as the
empty dataset, any other read failure is rethrown; on success the content
is handed to the CSV codec (`csv-parse`, modelled by the `parseCsv`
parameter).  The file-content type `F` abstracts the byte string. -/
def readCsvFile {F : Type} (parseCsv : F → List VideoRecord) (r : Except FsError F) : Except RunError (List VideoRecord) :=
  match r with
  | .ok content => .ok (parseCsv content)
  | .error .enoent => .ok []
  | .error e => .error (.fs e)

/-- The stages of `main` before the save step (src/index.ts:148-174):
load, incremental fetch, metadata refresh, merge-sort, normalize.  Any
stage error propagates and aborts the run. -/
def mainOutput {F : Type} (parseCsv : F → List VideoRecord) (ts : String → Int)
    (readResult : Except FsError F)
    (listing : Except String (List (List SearchItem)))
    (api : DetailApi) : Except RunError (List VideoRecord) := do
  let existing ← readCsvFile parseCsv readResult
  let newV ← (getNewVideos listing api (existing.map VideoRecord.ID)).mapError RunError.api
  let updated ← (updateExistingVideos api existing).mapError RunError.api
  pure (processVideos (mergeSortVideos ts updated newV))

/-- The outcome of `fs.readFile` for a given file state: a pending read
failure, a missing file (`ENOENT`), or the content. -/
def readOf {F : Type} (file : Option F) (readFailure : Option String) : Except FsError F :=
  match readFailure with
  | some c => .error (.other c)
  | none =>
      match file with
      | none => .error .enoent
      | some s => .ok s

/-- Observable outcome of one `main` run: the file state afterwards and
whether the save step executed. -/
structure RunResult (F : Type) where
  file : Option F
  wrote : Bool

/-- `main` (src/index.ts:144-196): the whole pipeline inside one
`try`/`catch`; the save (`fs.writeFile`, src/index.ts:182) runs only
when every earlier stage succeeded, and the `catch` only logs. -/
def mainRun {F : Type} (parseCsv : F → List VideoRecord) (writeCsv : List VideoRecord → F)
    (ts : String → Int)
    (listing : Except String (List (List SearchItem)))
    (api : DetailApi) (file : Option F) (readFailure : Option String) : RunResult F :=
  match mainOutput parseCsv ts (readOf file readFailure) listing api with
  | .ok vids => ⟨some (writeCsv vids), true⟩
  | .error _ => ⟨file, false⟩

/-- A fixed, unchanging remote catalog: each id has at most one detail
item, and a `videos.list` call returns the items of the requested ids, in
order.  This is the mocked-remote model used by the idempotence claim. -/
def catalogApi (cat : String → Option DetailItem) : DetailApi :=
  fun ids => .ok (ids.filterMap cat)

/-- Pointwise effect of one batched pass with guard `g` against a fixed
catalog: the record is rewritten by the catalog item of its own id, when
that item exists and passes the guard. -/
def catOne (g : DetailItem → Option (VideoRecord → VideoRecord)) (cat : String → Option DetailItem) (v : VideoRecord) : VideoRecord :=
  match cat v.ID with
  | some it =>
      match g it with
      | some f => f v
      | none => v
  | none => v

/-- Pointwise effect of one refresh pass against a fixed catalog. -/
def refreshOne (cat : String → Option DetailItem) (v : VideoRecord) : VideoRecord :=
  catOne refreshUpd cat v

/-- Pointwise effect of the hydration pass against a fixed catalog. -/
def hydrateOne (cat : String → Option DetailItem) (v : VideoRecord) : VideoRecord :=
  catOne hydrateUpd cat v

/-- The id kept by the listing filter for one search item
(src/index.ts:44): present iff the item has a `videoId` not already in
the known set. -/
def newId (existingIds : List String) (it : SearchItem) : Option String :=
  match it.videoId with
  | some vid => if existingIds.contains vid then none else some vid
  | none => none

/-! ### Helper lemmas -/

theorem updateFirst_map {β : Type} (g : VideoRecord → β) (p : VideoRecord → Bool) (f : VideoRecord → VideoRecord) (hf : ∀ v, g (f v) = g v) : ∀ l : List VideoRecord, (updateFirst p f l).map g = l.map g
  | [] => rfl
  | v :: vs => by
    by_cases h : p v
    · simp [updateFirst, h, hf]
    · simp [updateFirst, h, updateFirst_map g p f hf vs]

theorem updateFirst_getElem? (p : VideoRecord → Bool) (f : VideoRecord → VideoRecord) : ∀ (l : List VideoRecord) (i : Nat) (v : VideoRecord), l[i]? = some v → p v = false → (updateFirst p f l)[i]? = some v
  | [], i, v, h, _ => by simp at h
  | w :: ws, 0, v, h, hp => by
    simp only [List.getElem?_cons_zero, Option.some.injEq] at h
    subst h
    simp [updateFirst, hp]
  | w :: ws, i + 1, v, h, hp => by
    simp only [List.getElem?_cons_succ] at h
    by_cases hw : p w
    · simpa [updateFirst, hw] using h
    · simpa [updateFirst, hw] using updateFirst_getElem? p f ws i v h hp

theorem updateFirst_cons_pos (p : VideoRecord → Bool) (f : VideoRecord → VideoRecord) (v : VideoRecord) (vs : List VideoRecord) (h : p v = true) : updateFirst p f (v :: vs) = f v :: vs := by
  simp [updateFirst, h]

theorem updateFirst_cons_neg (p : VideoRecord → Bool) (f : VideoRecord → VideoRecord) (v : VideoRecord) (vs : List VideoRecord) (h : p v = false) : updateFirst p f (v :: vs) = v :: updateFirst p f vs := by
  simp [updateFirst, h]

theorem applyItem_map_ID (g : DetailItem → Option (VideoRecord → VideoRecord)) (hg : ∀ it f, g it = some f → ∀ v, (f v).ID = v.ID) (vids : List VideoRecord) (it : DetailItem) : (applyItem g vids it).map VideoRecord.ID = vids.map VideoRecord.ID := by
  unfold applyItem
  cases hid : it.id with
  | none => rfl
  | some iid =>
    cases hgit : g it with
    | none => rfl
    | some f => exact updateFirst_map _ _ _ (hg it f hgit) vids

theorem foldl_applyItem_map_ID (g : DetailItem → Option (VideoRecord → VideoRecord)) (hg : ∀ it f, g it = some f → ∀ v, (f v).ID = v.ID) : ∀ (items : List DetailItem) (vids : List VideoRecord), (items.foldl (applyItem g) vids).map VideoRecord.ID = vids.map VideoRecord.ID
  | [], _ => rfl
  | it :: items, vids => by
    rw [List.foldl_cons, foldl_applyItem_map_ID g hg items, applyItem_map_ID g hg]

theorem foldlM_chunks_map_ID (api : DetailApi) (g : DetailItem → Option (VideoRecord → VideoRecord)) (hg : ∀ it f, g it = some f → ∀ v, (f v).ID = v.ID) : ∀ (calls : List (List String)) (acc out : List VideoRecord), calls.foldlM (fun acc ids => (api ids).map fun items => items.foldl (applyItem g) acc) acc = .ok out → out.map VideoRecord.ID = acc.map VideoRecord.ID
  | [], acc, out, h => by
    simp only [List.foldlM_nil] at h
    cases h
    rfl
  | ids :: calls, acc, out, h => by
    rw [List.foldlM_cons] at h
    cases hapi : api ids with
    | error e => rw [hapi] at h; simp [Bind.bind, Except.bind, Except.map] at h
    | ok items =>
      rw [hapi] at h
      simp only [Bind.bind, Except.bind, Except.map] at h
      have := foldlM_chunks_map_ID api g hg calls _ out h
      rw [this, foldl_applyItem_map_ID g hg]

theorem runChunks_map_ID (api : DetailApi) (g : DetailItem → Option (VideoRecord → VideoRecord)) (hg : ∀ it f, g it = some f → ∀ v, (f v).ID = v.ID) (vids out : List VideoRecord) (h : runChunks api g vids = .ok out) : out.map VideoRecord.ID = vids.map VideoRecord.ID :=
  foldlM_chunks_map_ID api g hg _ vids out h

theorem hydrateUpd_preserves_ID : ∀ it f, hydrateUpd it = some f → ∀ v, (f v).ID = v.ID := by
  intro it f h v
  unfold hydrateUpd at h
  cases hcd : it.contentDetails with
  | none => rw [hcd] at h; cases h
  | some cd => rw [hcd] at h; cases h; rfl

theorem refreshUpd_preserves_ID : ∀ it f, refreshUpd it = some f → ∀ v, (f v).ID = v.ID := by
  intro it f h v
  unfold refreshUpd at h
  cases hst : it.statistics with
  | none => rw [hst] at h; cases h
  | some st => rw [hst] at h; cases h; rfl

theorem hydrateUpd_preserves_Title : ∀ it f, hydrateUpd it = some f → ∀ v, (f v).Title = v.Title := by
  intro it f h v
  unfold hydrateUpd at h
  cases hcd : it.contentDetails with
  | none => rw [hcd] at h; cases h
  | some cd => rw [hcd] at h; cases h; rfl

theorem refreshUpd_preserves_Title : ∀ it f, refreshUpd it = some f → ∀ v, (f v).Title = v.Title := by
  intro it f h v
  unfold refreshUpd at h
  cases hst : it.statistics with
  | none => rw [hst] at h; cases h
  | some st => rw [hst] at h; cases h; rfl

theorem refreshUpd_preserves_publishedAt : ∀ it f, refreshUpd it = some f → ∀ v, (f v).publishedAt = v.publishedAt := by
  intro it f h v
  unfold refreshUpd at h
  cases hst : it.statistics with
  | none => rw [hst] at h; cases h
  | some st => rw [hst] at h; cases h; rfl

theorem refreshUpd_preserves_Duration : ∀ it f, refreshUpd it = some f → ∀ v, (f v).Duration = v.Duration := by
  intro it f h v
  unfold refreshUpd at h
  cases hst : it.statistics with
  | none => rw [hst] at h; cases h
  | some st => rw [hst] at h; cases h; rfl

theorem updateExistingVideos_map_ID (api : DetailApi) (vids out : List VideoRecord) (h : updateExistingVideos api vids = .ok out) : out.map VideoRecord.ID = vids.map VideoRecord.ID :=
  runChunks_map_ID api refreshUpd refreshUpd_preserves_ID vids out h

theorem hydrateNew_map_ID (api : DetailApi) (vids out : List VideoRecord) (h : hydrateNew api vids = .ok out) : out.map VideoRecord.ID = vids.map VideoRecord.ID := by
  unfold hydrateNew at h
  by_cases he : vids.isEmpty
  · rw [if_pos he] at h; cases h; rfl
  · rw [if_neg he] at h; exact runChunks_map_ID api hydrateUpd hydrateUpd_preserves_ID vids out h


theorem applyItem_getElem?_of_ne (g : DetailItem → Option (VideoRecord → VideoRecord)) (vids : List VideoRecord) (it : DetailItem) (i : Nat) (v : VideoRecord) (hi : vids[i]? = some v) (hne : it.id ≠ some v.ID) : (applyItem g vids it)[i]? = some v := by
  unfold applyItem
  cases hid : it.id with
  | none => exact hi
  | some iid =>
    cases hgit : g it with
    | none => exact hi
    | some f =>
      apply updateFirst_getElem? _ _ _ _ _ hi
      rw [hid] at hne
      have hne2 : iid ≠ v.ID := fun hEq => hne (by rw [hEq])
      have : (v.ID == iid) = false := by
        rw [beq_eq_false_iff_ne]
        exact fun hEq => hne2 hEq.symm
      exact this

theorem foldl_applyItem_getElem? (g : DetailItem → Option (VideoRecord → VideoRecord)) : ∀ (items : List DetailItem) (vids : List VideoRecord) (i : Nat) (v : VideoRecord), vids[i]? = some v → (∀ it ∈ items, it.id ≠ some v.ID) → (items.foldl (applyItem g) vids)[i]? = some v
  | [], _, _, _, h, _ => h
  | it :: items, vids, i, v, h, habs => by
    rw [List.foldl_cons]
    exact foldl_applyItem_getElem? g items _ i v (applyItem_getElem?_of_ne g vids it i v h (habs it (List.mem_cons_self it items))) (fun x hx => habs x (List.mem_cons_of_mem _ hx))

theorem foldlM_chunks_getElem? (api : DetailApi) (g : DetailItem → Option (VideoRecord → VideoRecord)) : ∀ (calls : List (List String)) (acc out : List VideoRecord) (i : Nat) (v : VideoRecord), acc[i]? = some v → (∀ ids ∈ calls, ∀ items, api ids = .ok items → ∀ it ∈ items, it.id ≠ some v.ID) → calls.foldlM (fun acc ids => (api ids).map fun items => items.foldl (applyItem g) acc) acc = .ok out → out[i]? = some v
  | [], acc, out, i, v, hi, _, h => by
    simp only [List.foldlM_nil] at h
    cases h
    exact hi
  | ids :: calls, acc, out, i, v, hi, habs, h => by
    rw [List.foldlM_cons] at h
    cases hapi : api ids with
    | error e => rw [hapi] at h; simp [Bind.bind, Except.bind, Except.map] at h
    | ok items =>
      rw [hapi] at h
      simp only [Bind.bind, Except.bind, Except.map] at h
      exact foldlM_chunks_getElem? api g calls _ out i v (foldl_applyItem_getElem? g items acc i v hi (habs ids (List.mem_cons_self _ _) items hapi)) (fun ids2 h2 => habs ids2 (List.mem_cons_of_mem _ h2)) h

theorem runChunks_untouched (api : DetailApi) (g : DetailItem → Option (VideoRecord → VideoRecord)) (vids out : List VideoRecord) (h : runChunks api g vids = .ok out) (i : Nat) (v : VideoRecord) (hi : vids[i]? = some v) (habs : ∀ ids ∈ detailCallsOf vids, ∀ items, api ids = .ok items → ∀ it ∈ items, it.id ≠ some v.ID) : out[i]? = some v :=
  foldlM_chunks_getElem? api g (detailCallsOf vids) vids out i v hi habs h


theorem chunksFuel_mem (n : Nat) (hn : 0 < n) : ∀ (f : Nat) (l : List α), l.length ≤ f → ∀ c ∈ chunksFuel n f l, c.length ≤ n ∧ c ≠ []
  | _, [], _, c, hc => by simp [chunksFuel] at hc
  | 0, x :: xs, hf, c, hc => by simp at hf
  | f + 1, x :: xs, hf, c, hc => by
    simp only [chunksFuel] at hc
    rcases List.mem_cons.mp hc with h | h
    · subst h
      refine ⟨by simp, ?_⟩
      intro hnil
      rcases (List.take_eq_nil_iff).mp hnil with h0 | h0
      · omega
      · simp at h0
    · refine chunksFuel_mem n hn f _ ?_ c h
      simp only [List.length_drop, List.length_cons] at *
      omega

theorem chunksOf_mem (n : Nat) (hn : 0 < n) (l : List α) (c : List α) (hc : c ∈ chunksOf n l) : c.length ≤ n ∧ c ≠ [] :=
  chunksFuel_mem n hn l.length l le_rfl c hc

theorem chunksOf_nil (n : Nat) : chunksOf n ([] : List α) = [] := rfl

theorem chunksFuel_flatten (n : Nat) (hn : 0 < n) : ∀ (f : Nat) (l : List α), l.length ≤ f → (chunksFuel n f l).flatten = l
  | _, [], _ => by simp [chunksFuel]
  | 0, x :: xs, hf => by simp at hf
  | f + 1, x :: xs, hf => by
    simp only [chunksFuel, List.flatten_cons]
    rw [chunksFuel_flatten n hn f _ (by simp only [List.length_drop, List.length_cons] at *; omega)]
    exact List.take_append_drop n (x :: xs)

theorem chunksOf_flatten (n : Nat) (hn : 0 < n) (l : List α) : (chunksOf n l).flatten = l :=
  chunksFuel_flatten n hn l.length l le_rfl

/-- Claim C7: every detail request carries at most 50 identifiers and is
nonempty; for an empty record list no detail call is constructed at all,
and the hydration phase of the fetcher returns immediately. -/
theorem detail_batch_invariant : (∀ vids : List VideoRecord, ∀ c ∈ detailCallsOf vids, c.length ≤ 50 ∧ c ≠ []) ∧ detailCallsOf [] = [] ∧ ∀ api : DetailApi, hydrateNew api [] = .ok [] := by
  refine ⟨fun vids c hc => chunksOf_mem 50 (by omega) _ c hc, rfl, fun api => rfl⟩

/-- Witness for C7 at a concrete record list. -/
theorem detail_batch_invariant_w : (["a"].length ≤ 50 ∧ ["a"] ≠ []) ∧ detailCallsOf [] = [] ∧ hydrateNew (fun _ => .ok []) [] = .ok [] := by
  refine ⟨detail_batch_invariant.1 [{ ID := "a", Title := "t", publishedAt := "p", Duration := "", ViewCount := none, LikeCount := none }] ["a"] (by decide), detail_batch_invariant.2.1, detail_batch_invariant.2.2 _⟩

/-- Claim C8: a missing file is recovered as the empty dataset, any other
read failure propagates, and a successful read is handed to the CSV codec. -/
theorem readCsvFile_error_contract {F : Type} : ∀ (parseCsv : F → List VideoRecord) (c : String) (content : F), readCsvFile parseCsv (.error .enoent) = .ok [] ∧ readCsvFile parseCsv (.error (.other c)) = .error (.fs (.other c)) ∧ readCsvFile parseCsv (.ok content) = .ok (parseCsv content) := by
  intro parseCsv c content
  exact ⟨rfl, rfl, rfl⟩

/-- Claim C9: if any stage before the save throws, `main` performs no
write: the save step does not run and the file is unchanged. -/
theorem no_partial_write {F : Type} (parseCsv : F → List VideoRecord) (writeCsv : List VideoRecord → F) (ts : String → Int) (listing : Except String (List (List SearchItem))) (api : DetailApi) (file : Option F) (rf : Option String) (e : RunError) (h : mainOutput parseCsv ts (readOf file rf) listing api = .error e) : mainRun parseCsv writeCsv ts listing api file rf = ⟨file, false⟩ := by
  unfold mainRun
  rw [h]

/-- Witness for C9: a failing listing call leaves the prior file intact. -/
theorem no_partial_write_w : mainRun (id : List VideoRecord → List VideoRecord) id (fun _ => 0) (.error "quota") (fun _ => .ok []) (some [{ ID := "a", Title := "t", publishedAt := "p", Duration := "", ViewCount := none, LikeCount := none }]) none = ⟨some [{ ID := "a", Title := "t", publishedAt := "p", Duration := "", ViewCount := none, LikeCount := none }], false⟩ :=
  no_partial_write id id (fun _ => 0) (.error "quota") (fun _ => .ok []) _ none (.api "quota") rfl

/-- Claim C10: a hydration response item without `contentDetails` fills
nothing at all, even when it carries `statistics`. -/
theorem hydration_requires_contentDetails : ∀ (vids : List VideoRecord) (it : DetailItem), it.contentDetails = none → applyItem hydrateUpd vids it = vids := by
  intro vids it h
  unfold applyItem hydrateUpd
  rw [h]
  cases it.id <;> rfl

/-- Witness for C10: an item with statistics but no contentDetails leaves
the provisional record untouched. -/
theorem hydration_requires_contentDetails_w : applyItem hydrateUpd [{ ID := "a", Title := "t", publishedAt := "p", Duration := "", ViewCount := none, LikeCount := none }] { id := some "a", contentDetails := none, statistics := some { viewCount := some 5, likeCount := some 2 } } = [{ ID := "a", Title := "t", publishedAt := "p", Duration := "", ViewCount := none, LikeCount := none }] :=
  hydration_requires_contentDetails _ _ rfl

/-- Claim C5: the refresher returns the same identifiers in the same
positions, and a record whose identifier appears in no detail response is
returned entirely unchanged. -/
theorem refresher_frame (api : DetailApi) (vids out : List VideoRecord) (h : updateExistingVideos api vids = .ok out) : out.map VideoRecord.ID = vids.map VideoRecord.ID ∧ out.length = vids.length ∧ ∀ (i : Nat) (v : VideoRecord), vids[i]? = some v → (∀ ids ∈ detailCallsOf vids, ∀ items, api ids = .ok items → ∀ it ∈ items, it.id ≠ some v.ID) → out[i]? = some v := by
  refine ⟨updateExistingVideos_map_ID api vids out h, ?_, ?_⟩
  · have hm := updateExistingVideos_map_ID api vids out h
    calc out.length = (out.map VideoRecord.ID).length := (List.length_map _ _).symm
      _ = (vids.map VideoRecord.ID).length := by rw [hm]
      _ = vids.length := List.length_map _ _
  · intro i v hi habs
    exact runChunks_untouched api refreshUpd vids out h i v hi habs

/-- Witness for C5: a response batch naming only an unknown id leaves the
known record byte-identical. -/
theorem refresher_frame_w : updateExistingVideos (fun _ => .ok [{ id := some "zz", contentDetails := none, statistics := some { viewCount := some 3, likeCount := some 4 } }]) [{ ID := "a", Title := "t", publishedAt := "p", Duration := "PT1M", ViewCount := some 5, LikeCount := some 1 }] = .ok [{ ID := "a", Title := "t", publishedAt := "p", Duration := "PT1M", ViewCount := some 5, LikeCount := some 1 }] ∧ [({ ID := "a", Title := "t", publishedAt := "p", Duration := "PT1M", ViewCount := some 5, LikeCount := some 1 } : VideoRecord)][0]? = some { ID := "a", Title := "t", publishedAt := "p", Duration := "PT1M", ViewCount := some 5, LikeCount := some 1 } := by
  refine ⟨rfl, ?_⟩
  refine (refresher_frame (fun _ => .ok [{ id := some "zz", contentDetails := none, statistics := some { viewCount := some 3, likeCount := some 4 } }]) [{ ID := "a", Title := "t", publishedAt := "p", Duration := "PT1M", ViewCount := some 5, LikeCount := some 1 }] [{ ID := "a", Title := "t", publishedAt := "p", Duration := "PT1M", ViewCount := some 5, LikeCount := some 1 }] rfl).2.2 0 _ rfl ?_
  intro ids _ items hitems it hit
  cases hitems
  simp only [List.mem_singleton] at hit
  subst hit
  decide


theorem videoLE_trans (ts : String → Int) : ∀ (a b c : VideoRecord), videoLE ts a b → videoLE ts b c → videoLE ts a c := by
  intro a b c hab hbc
  simp only [videoLE, decide_eq_true_eq] at *
  exact le_trans hbc hab

theorem videoLE_total (ts : String → Int) : ∀ (a b : VideoRecord), videoLE ts a b || videoLE ts b a := by
  intro a b
  simp only [videoLE, Bool.or_eq_true, decide_eq_true_eq]
  exact Int.le_total _ _

/-- Claim C4: the merged output is non-increasing in the parsed
`publishedAt` timestamp, and (stability of `Array.sort`) two records with
equal timestamps keep their relative order from the concatenated input. -/
theorem merge_sort_order (ts : String → Int) (existing newV : List VideoRecord) : ((mergeSortVideos ts existing newV).Pairwise fun a b => ts b.publishedAt ≤ ts a.publishedAt) ∧ ∀ a b : VideoRecord, ts a.publishedAt = ts b.publishedAt → [a, b].Sublist (existing ++ newV) → [a, b].Sublist (mergeSortVideos ts existing newV) := by
  constructor
  · have h := List.sorted_mergeSort (videoLE_trans ts) (videoLE_total ts) (existing ++ newV)
    exact h.imp fun hab => by simpa [videoLE, decide_eq_true_eq] using hab
  · intro a b hts hsub
    exact List.pair_sublist_mergeSort (videoLE_trans ts) (videoLE_total ts) (by simp [videoLE, hts]) hsub

/-- Witness for C4: two equal-timestamp records stay in input order. -/
theorem merge_sort_order_w : ((mergeSortVideos (fun s => (s.length : Int)) [{ ID := "a", Title := "t", publishedAt := "pp", Duration := "", ViewCount := none, LikeCount := none }] [{ ID := "b", Title := "u", publishedAt := "qq", Duration := "", ViewCount := none, LikeCount := none }]).Pairwise fun a b => (fun s => (s.length : Int)) b.publishedAt ≤ (fun s => (s.length : Int)) a.publishedAt) ∧ [{ ID := "a", Title := "t", publishedAt := "pp", Duration := "", ViewCount := none, LikeCount := none }, { ID := "b", Title := "u", publishedAt := "qq", Duration := "", ViewCount := none, LikeCount := none }].Sublist (mergeSortVideos (fun s => (s.length : Int)) [{ ID := "a", Title := "t", publishedAt := "pp", Duration := "", ViewCount := none, LikeCount := none }] [{ ID := "b", Title := "u", publishedAt := "qq", Duration := "", ViewCount := none, LikeCount := none }]) := by
  have h := merge_sort_order (fun s => (s.length : Int)) [{ ID := "a", Title := "t", publishedAt := "pp", Duration := "", ViewCount := none, LikeCount := none }] [{ ID := "b", Title := "u", publishedAt := "qq", Duration := "", ViewCount := none, LikeCount := none }]
  exact ⟨h.1, h.2 _ _ rfl (by decide)⟩

/-- Claim C6: title normalization is entity decoding, then curly-single
quote unification, then double-quote rewriting, in that order; on the
spec's example title it yields the expected string. -/
theorem normalize_composition : (∀ s : String, normalizeTitle s = ⟨rewriteDQ (unifySingle (heDecode s.data))⟩) ∧ normalizeTitle "He said &quot;Hi&rsquo;s&quot; fine" = String.mk ['H', 'e', ' ', 's', 'a', 'i', 'd', ' ', '\'', 'H', 'i', '\'', 's', '\'', ' ', 'f', 'i', 'n', 'e'] := by
  exact ⟨fun s => rfl, by decide⟩


theorem catOne_ID (g : DetailItem → Option (VideoRecord → VideoRecord)) (hg : ∀ it f, g it = some f → ∀ v, (f v).ID = v.ID) (cat : String → Option DetailItem) (v : VideoRecord) : (catOne g cat v).ID = v.ID := by
  unfold catOne
  cases hcv : cat v.ID with
  | none => rfl
  | some it =>
    cases hgit : g it with
    | none => simp [hgit]
    | some f =>
      simp only [hgit]
      exact hg it f hgit v

theorem foldl_applyItem_cons_skip (g : DetailItem → Option (VideoRecord → VideoRecord)) : ∀ (items : List DetailItem) (w : VideoRecord) (vs : List VideoRecord), (∀ it ∈ items, ∀ iid, it.id = some iid → iid ≠ w.ID) → items.foldl (applyItem g) (w :: vs) = w :: items.foldl (applyItem g) vs
  | [], _, _, _ => rfl
  | it :: items, w, vs, h => by
    rw [List.foldl_cons, List.foldl_cons]
    have h1 : applyItem g (w :: vs) it = w :: applyItem g vs it := by
      unfold applyItem
      cases hid : it.id with
      | none => rfl
      | some iid =>
        cases hgit : g it with
        | none => rfl
        | some f =>
          have hne : (w.ID == iid) = false := by
            rw [beq_eq_false_iff_ne]
            exact fun hEq => h it (List.mem_cons_self _ _) iid hid hEq.symm
          exact updateFirst_cons_neg _ _ _ _ hne
    rw [h1]
    exact foldl_applyItem_cons_skip g items w (applyItem g vs it) (fun x hx => h x (List.mem_cons_of_mem _ hx))

theorem catalog_fold_eq_map (g : DetailItem → Option (VideoRecord → VideoRecord)) (hg : ∀ it f, g it = some f → ∀ v, (f v).ID = v.ID) (cat : String → Option DetailItem) (hcat : ∀ x it, cat x = some it → it.id = some x) : ∀ (vids : List VideoRecord), (vids.map VideoRecord.ID).Nodup → ((vids.map VideoRecord.ID).filterMap cat).foldl (applyItem g) vids = vids.map (catOne g cat)
  | [], _ => rfl
  | v :: vs, hnd => by
    have hnd' : (vs.map VideoRecord.ID).Nodup := (List.nodup_cons.mp (by simpa using hnd)).2
    have hvnotin : v.ID ∉ vs.map VideoRecord.ID := (List.nodup_cons.mp (by simpa using hnd)).1
    have hskip : ∀ w : VideoRecord, w.ID = v.ID → ∀ x ∈ (vs.map VideoRecord.ID).filterMap cat, ∀ iid, x.id = some iid → iid ≠ w.ID := by
      intro w hw x hx iid hxid
      rcases List.mem_filterMap.mp hx with ⟨a, ha, hax⟩
      have : x.id = some a := hcat a x hax
      rw [this] at hxid
      cases hxid
      intro hEq
      rw [hw] at hEq
      exact hvnotin (hEq ▸ ha)
    simp only [List.map_cons, List.filterMap_cons]
    cases hcv : cat v.ID with
    | none =>
      rw [foldl_applyItem_cons_skip g _ v vs (hskip v rfl)]
      rw [catalog_fold_eq_map g hg cat hcat vs hnd']
      have : catOne g cat v = v := by unfold catOne; rw [hcv]
      rw [this]
    | some it =>
      rw [List.foldl_cons]
      have hid : it.id = some v.ID := hcat _ _ hcv
      have h1 : applyItem g (v :: vs) it = catOne g cat v :: vs := by
        unfold applyItem catOne
        rw [hid, hcv]
        cases hgit : g it with
        | none => simp [hgit]
        | some f =>
          simp only [hgit]
          exact updateFirst_cons_pos _ _ _ _ (by simp)
      rw [h1]
      rw [foldl_applyItem_cons_skip g _ _ vs (hskip (catOne g cat v) (catOne_ID g hg cat v))]
      rw [catalog_fold_eq_map g hg cat hcat vs hnd']

theorem foldlM_catalogApi (cat : String → Option DetailItem) (g : DetailItem → Option (VideoRecord → VideoRecord)) : ∀ (calls : List (List String)) (acc : List VideoRecord), calls.foldlM (fun acc ids => ((catalogApi cat) ids).map fun items => items.foldl (applyItem g) acc) acc = .ok (calls.foldl (fun acc ids => (ids.filterMap cat).foldl (applyItem g) acc) acc)
  | [], acc => rfl
  | ids :: calls, acc => by
    rw [List.foldlM_cons, List.foldl_cons]
    simp only [catalogApi, Except.map, Bind.bind, Except.bind]
    exact foldlM_catalogApi cat g calls _

theorem foldl_filterMap_chunks (g : DetailItem → Option (VideoRecord → VideoRecord)) (cat : String → Option DetailItem) : ∀ (L : List (List String)) (acc : List VideoRecord), L.foldl (fun acc ids => (ids.filterMap cat).foldl (applyItem g) acc) acc = ((L.flatten).filterMap cat).foldl (applyItem g) acc
  | [], _ => rfl
  | ids :: L, acc => by
    rw [List.foldl_cons, List.flatten_cons, List.filterMap_append, List.foldl_append]
    exact foldl_filterMap_chunks g cat L _

theorem runChunks_catalog (g : DetailItem → Option (VideoRecord → VideoRecord)) (hg : ∀ it f, g it = some f → ∀ v, (f v).ID = v.ID) (cat : String → Option DetailItem) (hcat : ∀ x it, cat x = some it → it.id = some x) (vids : List VideoRecord) (hnd : (vids.map VideoRecord.ID).Nodup) : runChunks (catalogApi cat) g vids = .ok (vids.map (catOne g cat)) := by
  unfold runChunks detailCallsOf
  rw [foldlM_catalogApi, foldl_filterMap_chunks, chunksOf_flatten 50 (by omega)]
  rw [catalog_fold_eq_map g hg cat hcat vids hnd]

theorem updateExistingVideos_catalog (cat : String → Option DetailItem) (hcat : ∀ x it, cat x = some it → it.id = some x) (vids : List VideoRecord) (hnd : (vids.map VideoRecord.ID).Nodup) : updateExistingVideos (catalogApi cat) vids = .ok (vids.map (refreshOne cat)) :=
  runChunks_catalog refreshUpd refreshUpd_preserves_ID cat hcat vids hnd

theorem hydrateNew_catalog (cat : String → Option DetailItem) (hcat : ∀ x it, cat x = some it → it.id = some x) (vids : List VideoRecord) (hnd : (vids.map VideoRecord.ID).Nodup) : hydrateNew (catalogApi cat) vids = .ok (vids.map (hydrateOne cat)) := by
  unfold hydrateNew
  cases vids with
  | nil => rfl
  | cons v vs =>
    rw [if_neg (by simp)]
    exact runChunks_catalog hydrateUpd hydrateUpd_preserves_ID cat hcat (v :: vs) hnd


/-- Counterexample to claim C2 as stated: the provider returns duration
PT2M for the known record, together with fresh statistics, yet the
refresher leaves the stored duration PT1M in place — `duration` is never
overwritten by `updateExistingVideos` (src/index.ts:100-106 touch only
the two counts). -/
theorem refresher_duration_cex : updateExistingVideos (fun _ => .ok [{ id := some "a", contentDetails := some { duration := some "PT2M" }, statistics := some { viewCount := some 7, likeCount := some 1 } }]) [{ ID := "a", Title := "t", publishedAt := "p", Duration := "PT1M", ViewCount := some 5, LikeCount := some 1 }] = .ok [{ ID := "a", Title := "t", publishedAt := "p", Duration := "PT1M", ViewCount := some 7, LikeCount := some 1 }] ∧ ("PT1M" : String) ≠ "PT2M" := by
  exact ⟨rfl, by decide⟩

/-- Claim C2 (amended): against a fixed per-id catalog and pairwise
distinct identifiers, the refresher overwrites exactly `ViewCount` and
`LikeCount` of each record whose identifier is returned with a
`statistics` object, using the returned values; `Duration` (and every
other field) is left unchanged, as is any record without such a response
item. -/
theorem refresher_overwrites_counts (cat : String → Option DetailItem) (hcat : ∀ x it, cat x = some it → it.id = some x) (vids : List VideoRecord) (hnd : (vids.map VideoRecord.ID).Nodup) : updateExistingVideos (catalogApi cat) vids = .ok (vids.map (refreshOne cat)) ∧ (∀ (v : VideoRecord) (it : DetailItem) (st : Stats), cat v.ID = some it → it.statistics = some st → refreshOne cat v = { v with ViewCount := some (st.viewCount.getD 0), LikeCount := some (st.likeCount.getD 0) }) ∧ ∀ v : VideoRecord, (refreshOne cat v).Duration = v.Duration := by
  refine ⟨updateExistingVideos_catalog cat hcat vids hnd, ?_, ?_⟩
  · intro v it st hcv hst
    unfold refreshOne catOne refreshUpd
    simp [hcv, hst]
  · intro v
    unfold refreshOne catOne
    cases hcv : cat v.ID with
    | none => rfl
    | some it =>
      cases hgit : refreshUpd it with
      | none => simp [hgit]
      | some f =>
        simp only [hgit]
        exact refreshUpd_preserves_Duration it f hgit v

/-- Witness for the amended C2 at a one-record dataset. -/
theorem refresher_overwrites_counts_w : updateExistingVideos (catalogApi fun x => if x = "a" then some { id := some "a", contentDetails := some { duration := some "PT2M" }, statistics := some { viewCount := some 7, likeCount := some 1 } } else none) [{ ID := "a", Title := "t", publishedAt := "p", Duration := "PT1M", ViewCount := some 5, LikeCount := some 1 }] = .ok ([{ ID := "a", Title := "t", publishedAt := "p", Duration := "PT1M", ViewCount := some 5, LikeCount := some 1 }].map (refreshOne fun x => if x = "a" then some { id := some "a", contentDetails := some { duration := some "PT2M" }, statistics := some { viewCount := some 7, likeCount := some 1 } } else none)) := by
  refine (refresher_overwrites_counts _ ?_ _ (by decide)).1
  intro x it h
  by_cases hx : x = "a"
  · subst hx
    simp at h
    rw [← h]
  · simp [hx] at h


theorem processVideos_map_ID (l : List VideoRecord) : (processVideos l).map VideoRecord.ID = l.map VideoRecord.ID := by
  unfold processVideos
  rw [List.map_map]
  exact List.map_congr_left fun v _ => rfl

theorem contains_false_iff (e : List String) (x : String) : e.contains x = false ↔ x ∉ e := by
  simp [List.contains]

theorem pageNew_map_ID (e : List String) (it : SearchItem) : (pageNew e it).map VideoRecord.ID = newId e it := by
  unfold pageNew newId
  cases hv : it.videoId with
  | none => rfl
  | some vid => by_cases hc : vid ∈ e <;> simp [hc]

theorem collectNew_map_ID (e : List String) (pages : List (List SearchItem)) : (collectNew e pages).map VideoRecord.ID = (pages.flatten).filterMap (newId e) := by
  unfold collectNew
  rw [← List.filterMap_flatten]
  induction pages with
  | nil => rfl
  | cons p ps ih =>
    simp only [List.map_cons, List.flatten_cons, List.map_append, List.filterMap_append]
    rw [ih]
    congr 1
    rw [List.map_filterMap]
    induction p with
    | nil => rfl
    | cons it its ihp =>
      simp only [List.filterMap_cons]
      rw [pageNew_map_ID]
      cases newId e it <;> simp [ihp]

theorem filterMap_newId_sublist (e : List String) : ∀ l : List SearchItem, (l.filterMap (newId e)).Sublist (l.filterMap SearchItem.videoId)
  | [] => .slnil
  | it :: l => by
    rw [List.filterMap_cons, List.filterMap_cons]
    cases hv : it.videoId with
    | none =>
      have hnone : newId e it = none := by simp [newId, hv]
      rw [hnone]
      exact filterMap_newId_sublist e l
    | some vid =>
      by_cases hc : vid ∈ e
      · have hnone : newId e it = none := by simp [newId, hv, hc]
        rw [hnone]
        exact (filterMap_newId_sublist e l).cons _
      · have hsome : newId e it = some vid := by simp [newId, hv, hc]
        rw [hsome]
        exact (filterMap_newId_sublist e l).cons₂ _

theorem newId_not_mem (e : List String) (l : List SearchItem) (x : String) (hx : x ∈ l.filterMap (newId e)) : x ∉ e := by
  rcases List.mem_filterMap.mp hx with ⟨it, _, hit⟩
  unfold newId at hit
  cases hv : it.videoId with
  | none => rw [hv] at hit; cases hit
  | some vid =>
    rw [hv] at hit
    by_cases hc : vid ∈ e
    · simp [hc] at hit
    · simp [hc] at hit
      cases hit
      exact hc

/-- Counterexample to claim C1 as stated: the local dataset is empty
(ids trivially pairwise distinct), and the remote listing returns the
same video id on two pages; `getNewVideos` checks only against the
existing ids (src/index.ts:44), so the run's output contains id a twice. -/
theorem output_duplicate_cex : mainOutput (id : List VideoRecord → List VideoRecord) (fun _ => 0) (.error .enoent) (.ok [[{ videoId := some "a", title := some "t", publishedAt := some "p" }], [{ videoId := some "a", title := some "t", publishedAt := some "p" }]]) (catalogApi fun _ => none) = .ok [{ ID := "a", Title := "t", publishedAt := "p", Duration := "", ViewCount := none, LikeCount := none }, { ID := "a", Title := "t", publishedAt := "p", Duration := "", ViewCount := none, LikeCount := none }] ∧ ¬ ([{ ID := "a", Title := "t", publishedAt := "p", Duration := "", ViewCount := none, LikeCount := none }, { ID := "a", Title := "t", publishedAt := "p", Duration := "", ViewCount := none, LikeCount := none }].map VideoRecord.ID).Nodup := by
  constructor
  · have h1 : mainOutput (id : List VideoRecord → List VideoRecord) (fun _ => 0) (.error .enoent) (.ok [[{ videoId := some "a", title := some "t", publishedAt := some "p" }], [{ videoId := some "a", title := some "t", publishedAt := some "p" }]]) (catalogApi fun _ => none) = .ok (processVideos (mergeSortVideos (fun _ => 0) [] [{ ID := "a", Title := "t", publishedAt := "p", Duration := "", ViewCount := none, LikeCount := none }, { ID := "a", Title := "t", publishedAt := "p", Duration := "", ViewCount := none, LikeCount := none }])) := rfl
    rw [h1]
    unfold mergeSortVideos
    rw [List.mergeSort_of_sorted (by decide)]
    rfl
  · decide

/-- Claim C1 (amended): when the local dataset's identifiers are pairwise
distinct and the remote listing's video identifiers are pairwise distinct
across all pages, the output of one run contains each identifier exactly
once, for every detail-response behaviour — in particular when an
identifier appears both locally and in the listing. -/
theorem output_ids_nodup {F : Type} (parseCsv : F → List VideoRecord) (ts : String → Int) (r : Except FsError F) (api : DetailApi) (pages : List (List SearchItem)) (E0 out : List VideoRecord) (hE : readCsvFile parseCsv r = .ok E0) (hE0 : (E0.map VideoRecord.ID).Nodup) (hL : ((pages.flatten).filterMap SearchItem.videoId).Nodup) (hout : mainOutput parseCsv ts r (.ok pages) api = .ok out) : (out.map VideoRecord.ID).Nodup := by
  unfold mainOutput at hout
  rw [hE] at hout
  simp only [Bind.bind, Except.bind] at hout
  cases hnew : getNewVideos (.ok pages) api (E0.map VideoRecord.ID) with
  | error e => rw [hnew] at hout; simp [Except.mapError] at hout
  | ok newV =>
    rw [hnew] at hout
    simp only [Except.mapError] at hout
    cases hupd : updateExistingVideos api E0 with
    | error e => rw [hupd] at hout; simp [Except.mapError] at hout
    | ok upd =>
      rw [hupd] at hout
      simp only [Pure.pure, Except.pure, Except.ok.injEq] at hout
      subst hout
      have hupdID : upd.map VideoRecord.ID = E0.map VideoRecord.ID := updateExistingVideos_map_ID api E0 upd hupd
      have hnewID : newV.map VideoRecord.ID = (pages.flatten).filterMap (newId (E0.map VideoRecord.ID)) := by
        have h2 : hydrateNew api (collectNew (E0.map VideoRecord.ID) pages) = .ok newV := by
          simpa [getNewVideos, Bind.bind, Except.bind] using hnew
        rw [hydrateNew_map_ID api _ newV h2, collectNew_map_ID]
      rw [processVideos_map_ID]
      have hperm : List.Perm ((mergeSortVideos ts upd newV).map VideoRecord.ID) ((upd ++ newV).map VideoRecord.ID) :=
        (List.mergeSort_perm (upd ++ newV) (videoLE ts)).map _
      apply hperm.nodup_iff.mpr
      rw [List.map_append, hupdID, hnewID]
      refine List.Nodup.append hE0 (List.Nodup.sublist (filterMap_newId_sublist _ _) hL) ?_
      intro a ha hb
      exact newId_not_mem _ _ a hb ha

/-- Witness for the amended C1: one known record, one genuinely new
listing item. -/
theorem output_ids_nodup_w : ((([{ ID := "b", Title := "u", publishedAt := "q", Duration := "PT2M", ViewCount := some 0, LikeCount := some 0 }] : List VideoRecord)).map VideoRecord.ID).Nodup := by
  refine output_ids_nodup (id : List VideoRecord → List VideoRecord) (fun _ => 0) (.error .enoent) (catalogApi fun x => if x = "b" then some { id := some "b", contentDetails := some { duration := some "PT2M" }, statistics := some { viewCount := some 0, likeCount := some 0 } } else none) [[{ videoId := some "b", title := some "u", publishedAt := some "q" }]] [] _ rfl (by decide) (by decide) ?_
  have h1 : mainOutput (id : List VideoRecord → List VideoRecord) (fun _ => 0) (.error .enoent) (.ok [[{ videoId := some "b", title := some "u", publishedAt := some "q" }]]) (catalogApi fun x => if x = "b" then some { id := some "b", contentDetails := some { duration := some "PT2M" }, statistics := some { viewCount := some 0, likeCount := some 0 } } else none) = .ok (processVideos (mergeSortVideos (fun _ => 0) [] [{ ID := "b", Title := "u", publishedAt := "q", Duration := "PT2M", ViewCount := some 0, LikeCount := some 0 }])) := rfl
  rw [h1]
  unfold mergeSortVideos
  simp only [List.nil_append, List.mergeSort_singleton]
  rfl


theorem catOne_Title (g : DetailItem → Option (VideoRecord → VideoRecord)) (hg : ∀ it f, g it = some f → ∀ v, (f v).Title = v.Title) (cat : String → Option DetailItem) (v : VideoRecord) : (catOne g cat v).Title = v.Title := by
  unfold catOne
  cases hcv : cat v.ID with
  | none => rfl
  | some it =>
    cases hgit : g it with
    | none => simp [hgit]
    | some f =>
      simp only [hgit]
      exact hg it f hgit v

theorem refreshOne_idem (cat : String → Option DetailItem) (v : VideoRecord) : refreshOne cat (refreshOne cat v) = refreshOne cat v := by
  unfold refreshOne catOne refreshUpd
  cases hcv : cat v.ID with
  | none => simp [hcv]
  | some it =>
    cases hst : it.statistics with
    | none => simp [hcv, hst]
    | some st => simp [hcv, hst]

theorem refreshOne_hydrateOne (cat : String → Option DetailItem) (hcat : ∀ x it, cat x = some it → it.id = some x ∧ it.contentDetails.isSome ∧ it.statistics.isSome) (v : VideoRecord) : refreshOne cat (hydrateOne cat v) = hydrateOne cat v := by
  unfold refreshOne hydrateOne catOne refreshUpd hydrateUpd
  cases hcv : cat v.ID with
  | none => simp [hcv]
  | some it =>
    rcases Option.isSome_iff_exists.mp (hcat _ _ hcv).2.1 with ⟨cd, hcd⟩
    rcases Option.isSome_iff_exists.mp (hcat _ _ hcv).2.2 with ⟨st, hst⟩
    simp [hcv, hcd, hst]

theorem refreshOne_retitle (cat : String → Option DetailItem) (v : VideoRecord) (t : String) : refreshOne cat { v with Title := t } = { refreshOne cat v with Title := t } := by
  unfold refreshOne catOne refreshUpd
  cases hcv : cat v.ID with
  | none => simp [hcv]
  | some it =>
    cases hst : it.statistics with
    | none => simp [hcv, hst]
    | some st => simp [hcv, hst]

theorem collectNew_eq_filterMap (e : List String) (pages : List (List SearchItem)) : collectNew e pages = (pages.flatten).filterMap (pageNew e) := by
  unfold collectNew
  rw [List.filterMap_flatten]

theorem collectNew_mem_title (e : List String) (pages : List (List SearchItem)) (u : VideoRecord) (hu : u ∈ collectNew e pages) : ∃ it ∈ pages.flatten, u.Title = it.title.getD "" := by
  rw [collectNew_eq_filterMap] at hu
  rcases List.mem_filterMap.mp hu with ⟨it, hit, hpn⟩
  refine ⟨it, hit, ?_⟩
  unfold pageNew at hpn
  cases hv : it.videoId with
  | none => rw [hv] at hpn; cases hpn
  | some vid =>
    rw [hv] at hpn
    by_cases hc : vid ∈ e
    · simp [hc] at hpn
    · simp [hc] at hpn
      rw [← hpn]

theorem collectNew_ids_nodup (e : List String) (pages : List (List SearchItem)) (hL : ((pages.flatten).filterMap SearchItem.videoId).Nodup) : ((collectNew e pages).map VideoRecord.ID).Nodup := by
  rw [collectNew_map_ID]
  exact List.Nodup.sublist (filterMap_newId_sublist _ _) hL

theorem collectNew_nil_of_known (e : List String) (pages : List (List SearchItem)) (hall : ∀ x ∈ (pages.flatten).filterMap SearchItem.videoId, x ∈ e) : collectNew e pages = [] := by
  rw [collectNew_eq_filterMap]
  rw [List.filterMap_eq_nil_iff]
  intro it hit
  unfold pageNew
  cases hv : it.videoId with
  | none => rfl
  | some vid =>
    have hm : vid ∈ e := hall vid (List.mem_filterMap.mpr ⟨it, hit, hv⟩)
    simp [hm]

theorem newId_mem_of (e : List String) (l : List SearchItem) (x : String) (hx : x ∈ l.filterMap SearchItem.videoId) (hnx : x ∉ e) : x ∈ l.filterMap (newId e) := by
  rcases List.mem_filterMap.mp hx with ⟨it, hit, hvx⟩
  exact List.mem_filterMap.mpr ⟨it, hit, by simp [newId, hvx, hnx]⟩

theorem processed_sorted (ts : String → Int) (A B : List VideoRecord) : (processVideos (mergeSortVideos ts A B)).Pairwise fun a b => videoLE ts a b = true := by
  unfold processVideos mergeSortVideos
  have hs := List.sorted_mergeSort (videoLE_trans ts) (videoLE_total ts) (A ++ B)
  exact hs.map _ fun a b hab => hab

theorem mergeSort_processed_self (ts : String → Int) (A B : List VideoRecord) : (processVideos (mergeSortVideos ts A B)).mergeSort (videoLE ts) = processVideos (mergeSortVideos ts A B) :=
  List.mergeSort_of_sorted (processed_sorted ts A B)

theorem processed_ids_perm (ts : String → Int) (A B : List VideoRecord) : List.Perm ((processVideos (mergeSortVideos ts A B)).map VideoRecord.ID) (A.map VideoRecord.ID ++ B.map VideoRecord.ID) := by
  rw [processVideos_map_ID, ← List.map_append]
  exact (List.mergeSort_perm (A ++ B) (videoLE ts)).map _

theorem mainOutput_catalog {F : Type} (parseCsv : F → List VideoRecord) (ts : String → Int) (r : Except FsError F) (cat : String → Option DetailItem) (pages : List (List SearchItem)) (E0 : List VideoRecord) (hE : readCsvFile parseCsv r = .ok E0) (hE0 : (E0.map VideoRecord.ID).Nodup) (hL : ((pages.flatten).filterMap SearchItem.videoId).Nodup) (hcat : ∀ x it, cat x = some it → it.id = some x) : mainOutput parseCsv ts r (.ok pages) (catalogApi cat) = .ok (processVideos (mergeSortVideos ts (E0.map (refreshOne cat)) ((collectNew (E0.map VideoRecord.ID) pages).map (hydrateOne cat)))) := by
  unfold mainOutput getNewVideos
  rw [hE]
  simp only [Bind.bind, Except.bind]
  rw [hydrateNew_catalog cat hcat _ (collectNew_ids_nodup _ _ hL)]
  rw [updateExistingVideos_catalog cat hcat E0 hE0]
  simp [Except.mapError, Pure.pure, Except.pure]


theorem refreshOne_Title (cat : String → Option DetailItem) (u : VideoRecord) : (refreshOne cat u).Title = u.Title :=
  catOne_Title refreshUpd refreshUpd_preserves_Title cat u

theorem hydrateOne_Title (cat : String → Option DetailItem) (u : VideoRecord) : (hydrateOne cat u).Title = u.Title :=
  catOne_Title hydrateUpd hydrateUpd_preserves_Title cat u

theorem refresh_fixed_of_mem (ts : String → Int) (cat : String → Option DetailItem) (hcat : ∀ x it, cat x = some it → it.id = some x ∧ it.contentDetails.isSome ∧ it.statistics.isSome) (E0 NV : List VideoRecord) : ∀ v ∈ processVideos (mergeSortVideos ts (E0.map (refreshOne cat)) (NV.map (hydrateOne cat))), refreshOne cat v = v := by
  intro v hv
  rcases List.mem_map.mp hv with ⟨w, hwS, rfl⟩
  have hw : w ∈ E0.map (refreshOne cat) ++ NV.map (hydrateOne cat) := List.mem_mergeSort.mp hwS
  rw [refreshOne_retitle]
  rcases List.mem_append.mp hw with h | h
  · rcases List.mem_map.mp h with ⟨u, _, rfl⟩
    rw [refreshOne_idem]
  · rcases List.mem_map.mp h with ⟨u, _, rfl⟩
    rw [refreshOne_hydrateOne cat hcat]

theorem titles_fixed_of_mem (ts : String → Int) (cat : String → Option DetailItem) (E0 : List VideoRecord) (pages : List (List SearchItem)) (hfixE : ∀ v ∈ E0, normalizeTitle (normalizeTitle v.Title) = normalizeTitle v.Title) (hfixL : ∀ it ∈ pages.flatten, normalizeTitle (normalizeTitle (it.title.getD "")) = normalizeTitle (it.title.getD "")) : ∀ v ∈ processVideos (mergeSortVideos ts (E0.map (refreshOne cat)) ((collectNew (E0.map VideoRecord.ID) pages).map (hydrateOne cat))), normalizeTitle v.Title = v.Title := by
  intro v hv
  rcases List.mem_map.mp hv with ⟨w, hwS, rfl⟩
  have hw : w ∈ E0.map (refreshOne cat) ++ (collectNew (E0.map VideoRecord.ID) pages).map (hydrateOne cat) := List.mem_mergeSort.mp hwS
  show normalizeTitle (normalizeTitle w.Title) = normalizeTitle w.Title
  rcases List.mem_append.mp hw with h | h
  · rcases List.mem_map.mp h with ⟨u, hu, rfl⟩
    rw [refreshOne_Title]
    exact hfixE u hu
  · rcases List.mem_map.mp h with ⟨u, hu, rfl⟩
    rw [hydrateOne_Title]
    rcases collectNew_mem_title _ _ u hu with ⟨it, hit, ht⟩
    rw [ht]
    exact hfixL it hit

theorem processed_nodup (ts : String → Int) (A B : List VideoRecord) (h : (A.map VideoRecord.ID ++ B.map VideoRecord.ID).Nodup) : ((processVideos (mergeSortVideos ts A B)).map VideoRecord.ID).Nodup :=
  (processed_ids_perm ts A B).nodup_iff.mpr h

/-- Counterexample to claim C3 as stated: with a fixed mocked remote
catalog, a listing title carrying a doubly-encoded entity normalizes to a
different string on the second run (entity decoding is not idempotent:
the first pass turns the escaped escape into a live entity, the second
pass decodes it), so the second run's file differs from the first. -/
theorem second_run_cex : (mainRun (id : List VideoRecord → List VideoRecord) id (fun _ => 0) (.ok [[{ videoId := some "a", title := some "&amp;amp;", publishedAt := some "p" }]]) (catalogApi fun x => if x = "a" then some { id := some "a", contentDetails := some { duration := some "PT1M" }, statistics := some { viewCount := some 5, likeCount := some 1 } } else none) ((mainRun (id : List VideoRecord → List VideoRecord) id (fun _ => 0) (.ok [[{ videoId := some "a", title := some "&amp;amp;", publishedAt := some "p" }]]) (catalogApi fun x => if x = "a" then some { id := some "a", contentDetails := some { duration := some "PT1M" }, statistics := some { viewCount := some 5, likeCount := some 1 } } else none) none none).file) none).file ≠ (mainRun (id : List VideoRecord → List VideoRecord) id (fun _ => 0) (.ok [[{ videoId := some "a", title := some "&amp;amp;", publishedAt := some "p" }]]) (catalogApi fun x => if x = "a" then some { id := some "a", contentDetails := some { duration := some "PT1M" }, statistics := some { viewCount := some 5, likeCount := some 1 } } else none) none none).file := by
  have hrun1 : mainRun (id : List VideoRecord → List VideoRecord) id (fun _ => 0) (.ok [[{ videoId := some "a", title := some "&amp;amp;", publishedAt := some "p" }]]) (catalogApi fun x => if x = "a" then some { id := some "a", contentDetails := some { duration := some "PT1M" }, statistics := some { viewCount := some 5, likeCount := some 1 } } else none) none none = ⟨some [{ ID := "a", Title := "&amp;", publishedAt := "p", Duration := "PT1M", ViewCount := some 5, LikeCount := some 1 }], true⟩ := by
    unfold mainRun
    have h1 : mainOutput (id : List VideoRecord → List VideoRecord) (fun _ => 0) (readOf none none) (.ok [[{ videoId := some "a", title := some "&amp;amp;", publishedAt := some "p" }]]) (catalogApi fun x => if x = "a" then some { id := some "a", contentDetails := some { duration := some "PT1M" }, statistics := some { viewCount := some 5, likeCount := some 1 } } else none) = .ok (processVideos (mergeSortVideos (fun _ => 0) [] [{ ID := "a", Title := "&amp;amp;", publishedAt := "p", Duration := "PT1M", ViewCount := some 5, LikeCount := some 1 }])) := rfl
    rw [h1]
    unfold mergeSortVideos
    simp only [List.nil_append, List.mergeSort_singleton]
    rfl
  have hrun2 : mainRun (id : List VideoRecord → List VideoRecord) id (fun _ => 0) (.ok [[{ videoId := some "a", title := some "&amp;amp;", publishedAt := some "p" }]]) (catalogApi fun x => if x = "a" then some { id := some "a", contentDetails := some { duration := some "PT1M" }, statistics := some { viewCount := some 5, likeCount := some 1 } } else none) (some [{ ID := "a", Title := "&amp;", publishedAt := "p", Duration := "PT1M", ViewCount := some 5, LikeCount := some 1 }]) none = ⟨some [{ ID := "a", Title := "&", publishedAt := "p", Duration := "PT1M", ViewCount := some 5, LikeCount := some 1 }], true⟩ := by
    unfold mainRun
    have h2 : mainOutput (id : List VideoRecord → List VideoRecord) (fun _ => 0) (readOf (some [{ ID := "a", Title := "&amp;", publishedAt := "p", Duration := "PT1M", ViewCount := some 5, LikeCount := some 1 }]) none) (.ok [[{ videoId := some "a", title := some "&amp;amp;", publishedAt := some "p" }]]) (catalogApi fun x => if x = "a" then some { id := some "a", contentDetails := some { duration := some "PT1M" }, statistics := some { viewCount := some 5, likeCount := some 1 } } else none) = .ok (processVideos (mergeSortVideos (fun _ => 0) [{ ID := "a", Title := "&amp;", publishedAt := "p", Duration := "PT1M", ViewCount := some 5, LikeCount := some 1 }] [])) := rfl
    rw [h2]
    unfold mergeSortVideos
    simp only [List.append_nil, List.mergeSort_singleton]
    rfl
  rw [hrun1, hrun2]
  decide


theorem mergeSortVideos_nil_right (ts : String → Int) (X : List VideoRecord) : mergeSortVideos ts X [] = X.mergeSort (videoLE ts) := by
  unfold mergeSortVideos
  rw [List.append_nil]

/-- Claim C3 (amended): against a fixed per-id catalog whose items echo
their id and carry both `contentDetails` and `statistics`, with pairwise
distinct local and listing identifiers, a round-tripping record codec,
and title normalization idempotent on every input title (no doubly
encoded entities), running the reconciliation a second time over the
first run's output file writes exactly the same file content. -/
theorem second_run_stable {F : Type} (parseCsv : F → List VideoRecord) (writeCsv : List VideoRecord → F) (round : ∀ l, parseCsv (writeCsv l) = l) (ts : String → Int) (cat : String → Option DetailItem) (pages : List (List SearchItem)) (file0 : Option F) (E0 : List VideoRecord) (hE : readCsvFile parseCsv (readOf file0 none) = .ok E0) (hE0 : (E0.map VideoRecord.ID).Nodup) (hL : ((pages.flatten).filterMap SearchItem.videoId).Nodup) (hcat : ∀ x it, cat x = some it → it.id = some x ∧ it.contentDetails.isSome ∧ it.statistics.isSome) (hfixE : ∀ v ∈ E0, normalizeTitle (normalizeTitle v.Title) = normalizeTitle v.Title) (hfixL : ∀ it ∈ pages.flatten, normalizeTitle (normalizeTitle (it.title.getD "")) = normalizeTitle (it.title.getD "")) : mainRun parseCsv writeCsv ts (.ok pages) (catalogApi cat) ((mainRun parseCsv writeCsv ts (.ok pages) (catalogApi cat) file0 none).file) none = mainRun parseCsv writeCsv ts (.ok pages) (catalogApi cat) file0 none := by
  have hcat1 : ∀ x it, cat x = some it → it.id = some x := fun x it h => (hcat x it h).1
  have h1 : mainOutput parseCsv ts (readOf file0 none) (.ok pages) (catalogApi cat) = .ok (processVideos (mergeSortVideos ts (E0.map (refreshOne cat)) ((collectNew (E0.map VideoRecord.ID) pages).map (hydrateOne cat)))) :=
    mainOutput_catalog parseCsv ts _ cat pages E0 hE hE0 hL hcat1
  have hr1 : mainRun parseCsv writeCsv ts (.ok pages) (catalogApi cat) file0 none = ⟨some (writeCsv (processVideos (mergeSortVideos ts (E0.map (refreshOne cat)) ((collectNew (E0.map VideoRecord.ID) pages).map (hydrateOne cat))))), true⟩ := by
    unfold mainRun
    rw [h1]
  rw [hr1]
  have hread2 : readCsvFile parseCsv (readOf (some (writeCsv (processVideos (mergeSortVideos ts (E0.map (refreshOne cat)) ((collectNew (E0.map VideoRecord.ID) pages).map (hydrateOne cat)))))) none) = .ok (processVideos (mergeSortVideos ts (E0.map (refreshOne cat)) ((collectNew (E0.map VideoRecord.ID) pages).map (hydrateOne cat)))) := by
    simp [readCsvFile, readOf, round]
  have hidE : (E0.map (refreshOne cat)).map VideoRecord.ID = E0.map VideoRecord.ID := by
    rw [List.map_map]
    exact List.map_congr_left fun v _ => catOne_ID refreshUpd refreshUpd_preserves_ID cat v
  have hidN : ((collectNew (E0.map VideoRecord.ID) pages).map (hydrateOne cat)).map VideoRecord.ID = (collectNew (E0.map VideoRecord.ID) pages).map VideoRecord.ID := by
    rw [List.map_map]
    exact List.map_congr_left fun v _ => catOne_ID hydrateUpd hydrateUpd_preserves_ID cat v
  have happids : (E0.map (refreshOne cat)).map VideoRecord.ID ++ ((collectNew (E0.map VideoRecord.ID) pages).map (hydrateOne cat)).map VideoRecord.ID = E0.map VideoRecord.ID ++ (pages.flatten).filterMap (newId (E0.map VideoRecord.ID)) := by
    rw [hidE, hidN, collectNew_map_ID]
  have happnd : ((E0.map (refreshOne cat)).map VideoRecord.ID ++ ((collectNew (E0.map VideoRecord.ID) pages).map (hydrateOne cat)).map VideoRecord.ID).Nodup := by
    rw [happids]
    refine List.Nodup.append hE0 (List.Nodup.sublist (filterMap_newId_sublist _ _) hL) ?_
    intro a ha hb
    exact newId_not_mem _ _ a hb ha
  have hout1nd : ((processVideos (mergeSortVideos ts (E0.map (refreshOne cat)) ((collectNew (E0.map VideoRecord.ID) pages).map (hydrateOne cat)))).map VideoRecord.ID).Nodup :=
    processed_nodup ts _ _ happnd
  have hknown : ∀ x ∈ (pages.flatten).filterMap SearchItem.videoId, x ∈ (processVideos (mergeSortVideos ts (E0.map (refreshOne cat)) ((collectNew (E0.map VideoRecord.ID) pages).map (hydrateOne cat)))).map VideoRecord.ID := by
    intro x hx
    apply (processed_ids_perm ts _ _).mem_iff.mpr
    rw [happids]
    by_cases hmem : x ∈ E0.map VideoRecord.ID
    · exact List.mem_append.mpr (Or.inl hmem)
    · exact List.mem_append.mpr (Or.inr (newId_mem_of _ _ x hx hmem))
  have hcoll2 : collectNew ((processVideos (mergeSortVideos ts (E0.map (refreshOne cat)) ((collectNew (E0.map VideoRecord.ID) pages).map (hydrateOne cat)))).map VideoRecord.ID) pages = [] :=
    collectNew_nil_of_known _ _ hknown
  have hfix1 : ∀ v ∈ processVideos (mergeSortVideos ts (E0.map (refreshOne cat)) ((collectNew (E0.map VideoRecord.ID) pages).map (hydrateOne cat))), refreshOne cat v = v :=
    refresh_fixed_of_mem ts cat hcat E0 _
  have hupd2 : updateExistingVideos (catalogApi cat) (processVideos (mergeSortVideos ts (E0.map (refreshOne cat)) ((collectNew (E0.map VideoRecord.ID) pages).map (hydrateOne cat)))) = .ok (processVideos (mergeSortVideos ts (E0.map (refreshOne cat)) ((collectNew (E0.map VideoRecord.ID) pages).map (hydrateOne cat)))) := by
    rw [updateExistingVideos_catalog cat hcat1 _ hout1nd]
    congr 1
    calc (processVideos (mergeSortVideos ts (E0.map (refreshOne cat)) ((collectNew (E0.map VideoRecord.ID) pages).map (hydrateOne cat)))).map (refreshOne cat)
        = (processVideos (mergeSortVideos ts (E0.map (refreshOne cat)) ((collectNew (E0.map VideoRecord.ID) pages).map (hydrateOne cat)))).map id := List.map_congr_left fun v hv => hfix1 v hv
      _ = _ := List.map_id _
  have hfix2 : ∀ v ∈ processVideos (mergeSortVideos ts (E0.map (refreshOne cat)) ((collectNew (E0.map VideoRecord.ID) pages).map (hydrateOne cat))), normalizeTitle v.Title = v.Title :=
    titles_fixed_of_mem ts cat E0 pages hfixE hfixL
  have hproc2 : processVideos (processVideos (mergeSortVideos ts (E0.map (refreshOne cat)) ((collectNew (E0.map VideoRecord.ID) pages).map (hydrateOne cat)))) = processVideos (mergeSortVideos ts (E0.map (refreshOne cat)) ((collectNew (E0.map VideoRecord.ID) pages).map (hydrateOne cat))) := by
    unfold processVideos
    calc (List.map (fun v => { v with Title := normalizeTitle v.Title }) (mergeSortVideos ts (E0.map (refreshOne cat)) ((collectNew (E0.map VideoRecord.ID) pages).map (hydrateOne cat)))).map (fun v => { v with Title := normalizeTitle v.Title })
        = (List.map (fun v => { v with Title := normalizeTitle v.Title }) (mergeSortVideos ts (E0.map (refreshOne cat)) ((collectNew (E0.map VideoRecord.ID) pages).map (hydrateOne cat)))).map id := List.map_congr_left fun v hv => by rw [hfix2 v hv]; rfl
      _ = _ := List.map_id _
  have h2 : mainOutput parseCsv ts (readOf (some (writeCsv (processVideos (mergeSortVideos ts (E0.map (refreshOne cat)) ((collectNew (E0.map VideoRecord.ID) pages).map (hydrateOne cat)))))) none) (.ok pages) (catalogApi cat) = .ok (processVideos (mergeSortVideos ts (E0.map (refreshOne cat)) ((collectNew (E0.map VideoRecord.ID) pages).map (hydrateOne cat)))) := by
    unfold mainOutput getNewVideos
    rw [hread2]
    simp only [Bind.bind, Except.bind]
    rw [hcoll2]
    have hhyd : hydrateNew (catalogApi cat) ([] : List VideoRecord) = .ok [] := rfl
    rw [hhyd, hupd2]
    simp only [Except.mapError, Pure.pure, Except.pure]
    rw [mergeSortVideos_nil_right, mergeSort_processed_self, hproc2]
  unfold mainRun
  rw [h2]

/-- Witness for the amended C3: empty local file, one listing item with a
fully populated catalog entry. -/
theorem second_run_stable_w : mainRun (id : List VideoRecord → List VideoRecord) id (fun _ => 0) (.ok [[{ videoId := some "b", title := some "u", publishedAt := some "q" }]]) (catalogApi fun x => if x = "b" then some { id := some "b", contentDetails := some { duration := some "PT2M" }, statistics := some { viewCount := some 3, likeCount := some 2 } } else none) ((mainRun (id : List VideoRecord → List VideoRecord) id (fun _ => 0) (.ok [[{ videoId := some "b", title := some "u", publishedAt := some "q" }]]) (catalogApi fun x => if x = "b" then some { id := some "b", contentDetails := some { duration := some "PT2M" }, statistics := some { viewCount := some 3, likeCount := some 2 } } else none) none none).file) none = mainRun (id : List VideoRecord → List VideoRecord) id (fun _ => 0) (.ok [[{ videoId := some "b", title := some "u", publishedAt := some "q" }]]) (catalogApi fun x => if x = "b" then some { id := some "b", contentDetails := some { duration := some "PT2M" }, statistics := some { viewCount := some 3, likeCount := some 2 } } else none) none none := by
  refine second_run_stable id id (fun l => rfl) (fun _ => 0) _ _ none [] rfl (by decide) (by decide) ?_ (by simp) ?_
  · intro x it h
    by_cases hx : x = "b"
    · subst hx
      have h2 : { id := some "b", contentDetails := some { duration := some "PT2M" }, statistics := some { viewCount := some 3, likeCount := some 2 } } = it := by simpa using h
      subst h2
      exact ⟨rfl, rfl, rfl⟩
    · simp [hx] at h
  · intro it hit
    have hit2 : it = { videoId := some "b", title := some "u", publishedAt := some "q" } := by simpa using hit
    subst hit2
    decide

end YtSync
